import Mathlib

/-!
Verification of the middlewarer code generator.

The program resolves a named interface in the invoking package and emits a
wrapper type whose methods delegate to the wrapped value, optionally through a
per-method override ("middleware") function.  Text built by the generator is
modelled as lists of characters; each definition below transcribes the
corresponding function of the source.
-/

namespace Middlewarer

/-- Text values are lists of characters, mirroring the byte strings the
generator assembles by successive appends. -/
abbrev Str := List Char

/-- The characters of a string literal. -/
def str (s : String) : Str := s.toList

/-- A single newline character, the line terminator of every format string. -/
def nl : Str := ['\n']

/-- A piece of text that contains no newline, hence stays on a single line. -/
def noNl (s : Str) : Prop := '\n' ∉ s

instance (s : Str) : Decidable (noNl s) := inferInstanceAs (Decidable ('\n' ∉ s))

/-- Split text into its lines, as delimited by newline characters.  Text
ending in a newline yields a trailing empty line. -/
def lines : Str → List Str
  | [] => [[]]
  | c :: rest =>
    if c = '\n' then [] :: lines rest
    else match lines rest with
      | l :: ls => (c :: l) :: ls
      | [] => [[c]]

/-- Rebuild text from a list of lines, terminating each with a newline. -/
def unlines (ls : List Str) : Str := (ls.map (· ++ nl)).flatten

/-- Join chunks of text with a separator, as the strings library Join does. -/
def joinSep (sep : Str) : List Str → Str
  | [] => []
  | [x] => x
  | x :: y :: t => x ++ sep ++ joinSep sep (y :: t)

/-- TrimSuffix from the strings library: drop the suffix when present,
return the text unchanged otherwise. -/
def trimSuffix (s suf : Str) : Str :=
  if suf.isSuffixOf s then s.take (s.length - suf.length) else s

/-- The character for one decimal digit. -/
def digitChar (n : Nat) : Char := Char.ofNat (48 + n)

/-- Digit extraction with explicit fuel; the fuel never runs out when it
starts at least at the number itself. -/
def natToCharsCore : Nat → Nat → Str
  | 0, _ => []
  | fuel + 1, n =>
    if n < 10 then [digitChar n]
    else natToCharsCore fuel (n / 10) ++ [digitChar (n % 10)]

/-- The decimal rendering of a natural number, as the %d verb prints it. -/
def natToChars (n : Nat) : Str := natToCharsCore (n + 1) n

/-- Lowercase a piece of text character by character, as strings.ToLower. -/
def toLowerStr (s : Str) : Str := s.map Char.toLower

/-- A package: its import path and its short display name. -/
structure Pkg where
  path : Str
  name : Str

/-- The type expressions a signature can mention: predeclared types, named
types originating from a package, and the composite forms (pointer, slice,
map, generic instantiation) whose constituents are again type expressions. -/
inductive TypeRef where
  | basic : Str → TypeRef
  | named : Pkg → Str → TypeRef
  | pointer : TypeRef → TypeRef
  | slice : TypeRef → TypeRef
  | mapType : TypeRef → TypeRef → TypeRef
  | generic : TypeRef → List TypeRef → TypeRef

mutual

/-- types.TypeString under a qualifier: a named type is prefixed by the
qualifier's answer for its package (followed by a dot) when that answer is
nonempty, and composite types qualify their constituents recursively. -/
def typeString (q : Pkg → Str) : TypeRef → Str
  | .basic n => n
  | .named p n => if q p = [] then n else q p ++ str "." ++ n
  | .pointer t => str "*" ++ typeString q t
  | .slice t => str "[]" ++ typeString q t
  | .mapType k v => str "map[" ++ typeString q k ++ str "]" ++ typeString q v
  | .generic b args => typeString q b ++ str "[" ++ typeStringList q args ++ str "]"

/-- The comma-joined rendering of a type-argument list. -/
def typeStringList (q : Pkg → Str) : List TypeRef → Str
  | [] => []
  | [t] => typeString q t
  | t :: t2 :: rest => typeString q t ++ str ", " ++ typeStringList q (t2 :: rest)

end

/-- One variable of a signature tuple: its declared name (empty when the
source leaves it unnamed) and its type. -/
structure Param where
  name : Str
  type : TypeRef

/-- One method of the target interface: a name, the ordered parameters and
the ordered results. -/
structure Method where
  name : Str
  params : List Param
  results : List Param

/-- types.WriteTuple: parenthesized, comma-joined variables, each printed as
its declared name (when present) followed by its qualified type. -/
def writeTuple (q : Pkg → Str) (vs : List Param) : Str :=
  str "(" ++
    joinSep (str ", ")
      (vs.map fun v => (if v.name = [] then [] else v.name ++ str " ") ++ typeString q v.type) ++
    str ")"

/-- types.WriteSignature: the parameter tuple, then — when results exist — a
space and either the bare type of a single unnamed result or the result
tuple. -/
def writeSignature (q : Pkg → Str) (params results : List Param) : Str :=
  writeTuple q params ++
    match results with
    | [] => []
    | [r] => if r.name = [] then str " " ++ typeString q r.type else str " " ++ writeTuple q results
    | _ => str " " ++ writeTuple q results

/-- typeStringQuantifier: the qualifier handed to TypeString, mapping the
invoking package to the empty prefix and any other package to its name. -/
def typeStringQuantifier (gPkgPath : Str) (p : Pkg) : Str :=
  if p.path = gPkgPath then [] else p.name

/-- One iteration of the parameter loop appends the binding a<i> <type> and
a trailing comma-space. -/
def paramChunk (q : Pkg → Str) (i : Nat) (p : Param) : Str :=
  str "a" ++ natToChars i ++ str " " ++ typeString q p.type ++ str ", "

/-- The raw parameters list built by the loop of generateMiddlewareMethod,
still carrying its trailing comma-space. -/
def parametersRaw (q : Pkg → Str) (ps : List Param) : Str :=
  ps.enum.foldl (fun acc ip => acc ++ paramChunk q ip.1 ip.2) []

/-- One iteration of the arguments loop appends a<i> and a comma-space. -/
def argChunk (i : Nat) : Str := str "a" ++ natToChars i ++ str ", "

/-- The raw arguments list built by the loop, with its trailing comma-space. -/
def argumentsRaw (n : Nat) : Str :=
  (List.range n).foldl (fun acc i => acc ++ argChunk i) []

/-- The parameters text of a generated method: the raw list with the
trailing comma-space removed. -/
def parametersStr (q : Pkg → Str) (ps : List Param) : Str :=
  trimSuffix (parametersRaw q ps) (str ", ")

/-- The arguments text of a generated method: the raw list with the trailing
comma-space removed. -/
def argumentsStr (n : Nat) : Str :=
  trimSuffix (argumentsRaw n) (str ", ")

/-- The rendered result type of a method that has results: the comma-joined
qualified result types, parenthesized unless there is exactly one. -/
def returnTypeString (q : Pkg → Str) (results : List Param) : Str :=
  let returnType := joinSep (str ", ") (results.map fun r => typeString q r.type)
  if results.length ≠ 1 then str "(" ++ returnType ++ str ")" else returnType

/-- interfaceMethodFormatReturn: the body of a generated method that has a
return value. -/
def interfaceMethodFormatReturn (fl sn name parameters returnType arguments : Str) : Str :=
  str "func (" ++ fl ++ str " *" ++ sn ++ str ") " ++ name ++ str "(" ++ parameters ++
    str ") " ++ returnType ++ str " \x7b" ++ nl ++
  str "\tfun := " ++ fl ++ str ".wrapped." ++ name ++ nl ++
  str "\tif " ++ fl ++ str "." ++ name ++ str "Middleware != nil \x7b" ++ nl ++
  str "\t\tfun = " ++ fl ++ str "." ++ name ++ str "Middleware(fun)" ++ nl ++
  str "\t\x7d" ++ nl ++
  str "\treturn fun(" ++ arguments ++ str ")" ++ nl ++
  str "\x7d" ++ nl ++ nl

/-- interfaceMethodFormatVoid: the body of a generated method that has no
return value. -/
def interfaceMethodFormatVoid (fl sn name parameters arguments : Str) : Str :=
  str "func (" ++ fl ++ str " *" ++ sn ++ str ") " ++ name ++ str "(" ++ parameters ++
    str ") \x7b" ++ nl ++
  str "\tfun := " ++ fl ++ str ".wrapped." ++ name ++ nl ++
  str "\tif " ++ fl ++ str "." ++ name ++ str "Middleware != nil \x7b" ++ nl ++
  str "\t\tfun = " ++ fl ++ str "." ++ name ++ str "Middleware(fun)" ++ nl ++
  str "\t\x7d" ++ nl ++
  str "\tfun(" ++ arguments ++ str ")" ++ nl ++
  str "\x7d" ++ nl ++ nl

/-- generateMiddlewareMethod: the body generated for one interface method,
selecting the void or the value-returning template. -/
def generateMiddlewareMethod (fl sn : Str) (q : Pkg → Str) (m : Method) : Str :=
  if m.results.length = 0 then
    interfaceMethodFormatVoid fl sn m.name (parametersStr q m.params)
      (argumentsStr m.params.length)
  else
    interfaceMethodFormatReturn fl sn m.name (parametersStr q m.params)
      (returnTypeString q m.results) (argumentsStr m.params.length)

/-- The handler type alias emitted for one method. -/
def handlerAliasLine (q : Pkg → Str) (m : Method) : Str :=
  str "type " ++ m.name ++ str "Handler func" ++ writeSignature q m.params m.results

/-- The override field emitted for one method into the middleware struct. -/
def overrideFieldLine (m : Method) : Str :=
  str "\t" ++ m.name ++ str "Middleware func(" ++ m.name ++ str "Handler) " ++
    m.name ++ str "Handler"

/-- The three buffers that one loop iteration of generateInterfaceMethods
appends to. -/
structure Buffers where
  middlewareStruct : Str
  handlerFuncTypes : Str
  interfaceMethods : Str

/-- One iteration of generateInterfaceMethods: append the handler type
alias, the override struct field, and the method body for one method. -/
def genMethodStep (fl sn : Str) (q : Pkg → Str) (b : Buffers) (m : Method) : Buffers :=
  { middlewareStruct := b.middlewareStruct ++ overrideFieldLine m ++ nl
    handlerFuncTypes := b.handlerFuncTypes ++ handlerAliasLine q m ++ nl
    interfaceMethods := b.interfaceMethods ++ generateMiddlewareMethod fl sn q m }

/-- generateInterfaceMethods: fold the per-method step over the methods in
declaration order. -/
def generateInterfaceMethods (fl sn : Str) (q : Pkg → Str) (b : Buffers)
    (ms : List Method) : Buffers :=
  ms.foldl (genMethodStep fl sn q) b

/-- wrapFunctionFormat: the constructor returning the wrapped instance. -/
def wrapFunctionFormat (targetName structName : Str) : Str :=
  str "// Wrap" ++ targetName ++ str " returns the passed " ++ targetName ++
    str " wrapped in the middleware defined in " ++ structName ++ nl ++
  str "func Wrap" ++ targetName ++ str "(toWrap " ++ targetName ++ str ", wrapper " ++
    structName ++ str ") " ++ targetName ++ str " \x7b" ++ nl ++
  str "\twrapper.wrapped = toWrap" ++ nl ++
  str "\treturn &wrapper" ++ nl ++
  str "\x7d" ++ nl

/-- The header of the middleware struct declaration: doc comment, the type
line, the wrapped delegate field and a blank line. -/
def middlewareStructHeader (targetName structName : Str) : Str :=
  str "// " ++ structName ++ str " implements " ++ targetName ++ nl ++
  str "type " ++ structName ++ str " struct \x7b" ++ nl ++
  str "\twrapped " ++ targetName ++ nl ++ nl

/-- The first letter of the target name, lowercased; extracting it from the
empty name faults, modelled as none. -/
def firstLetterLower : Str → Option Str
  | [] => none
  | c :: _ => some [c.toLower]

/-- The four generated sections. -/
structure Code where
  wrapFunction : Str
  middlewareStruct : Str
  handlerFuncTypes : Str
  interfaceMethods : Str

instance : Inhabited Code := ⟨⟨[], [], [], []⟩⟩

/-- generateWrapperCode: derive the struct name and receiver letter, write
the constructor and the struct header, run the per-method loop and close the
struct. -/
def generateWrapperCode (targetName : Str) (q : Pkg → Str) (methods : List Method) :
    Option Code :=
  let structName := targetName ++ str "Middleware"
  match firstLetterLower targetName with
  | none => none
  | some targetFirstLetter =>
    let b := generateInterfaceMethods targetFirstLetter structName q
      ⟨middlewareStructHeader targetName structName, [], []⟩ methods
    some ⟨wrapFunctionFormat targetName structName,
          b.middlewareStruct ++ str "\x7d" ++ nl,
          b.handlerFuncTypes,
          b.interfaceMethods⟩

/-- print: the generated-file header naming the invoking command line, the
package clause, then the four buffers in fixed order, each followed by a
blank line. -/
def printOutput (args pkgName : Str) (c : Code) : Str :=
  str "// Code generated by \"middlewarer " ++ args ++ str "\"; DO NOT EDIT." ++ nl ++
  str "package " ++ pkgName ++ nl ++ nl ++
  c.wrapFunction ++ nl ++
  c.middlewareStruct ++ nl ++
  c.handlerFuncTypes ++ nl ++
  c.interfaceMethods ++ nl

/-- The lines of the body generated for one method, in order: the signature
line, the default-handler binding, the override check, the override
application, the closing of the check, the invocation (returning or not),
the closing brace, and the blank separator line. -/
def methodBodyLines (fl sn : Str) (q : Pkg → Str) (m : Method) : List Str :=
  [str "func (" ++ fl ++ str " *" ++ sn ++ str ") " ++ m.name ++ str "(" ++
      parametersStr q m.params ++
      (if m.results.length = 0 then str ") \x7b"
       else str ") " ++ returnTypeString q m.results ++ str " \x7b"),
   str "\tfun := " ++ fl ++ str ".wrapped." ++ m.name,
   str "\tif " ++ fl ++ str "." ++ m.name ++ str "Middleware != nil \x7b",
   str "\t\tfun = " ++ fl ++ str "." ++ m.name ++ str "Middleware(fun)",
   str "\t\x7d",
   (if m.results.length = 0 then str "\tfun(" else str "\treturn fun(") ++
     argumentsStr m.params.length ++ str ")",
   str "\x7d",
   []]

/-- The lines of the generated constructor. -/
def wrapFunctionLines (targetName structName : Str) : List Str :=
  [str "// Wrap" ++ targetName ++ str " returns the passed " ++ targetName ++
     str " wrapped in the middleware defined in " ++ structName,
   str "func Wrap" ++ targetName ++ str "(toWrap " ++ targetName ++ str ", wrapper " ++
     structName ++ str ") " ++ targetName ++ str " \x7b",
   str "\twrapper.wrapped = toWrap",
   str "\treturn &wrapper",
   str "\x7d"]

/-- The lines of the middleware struct header: doc comment, type line,
delegate field, blank line. -/
def middlewareStructHeaderLines (targetName structName : Str) : List Str :=
  [str "// " ++ structName ++ str " implements " ++ targetName,
   str "type " ++ structName ++ str " struct \x7b",
   str "\twrapped " ++ targetName,
   []]

/-- A method whose rendered pieces stay on single lines: its name, its
signature as printed into the handler alias, its parameter list and its
result type contain no newline.  Satisfied by every method whose
identifiers and type names are real identifiers. -/
def Method.wfR (q : Pkg → Str) (m : Method) : Prop :=
  noNl m.name ∧ noNl (writeSignature q m.params m.results) ∧
    noNl (parametersStr q m.params) ∧ noNl (returnTypeString q m.results)

instance (q : Pkg → Str) (m : Method) : Decidable (m.wfR q) :=
  inferInstanceAs (Decidable (_ ∧ _ ∧ _ ∧ _))

/-- The underlying shape of a declaration found in the package scope: an
interface carrying its method list, or anything else. -/
inductive Underlying where
  | iface : List Method → Underlying
  | other : Underlying

/-- One loaded compilation unit: its import path, its package name, and its
top-level declaration scope. -/
structure LoadedPackage where
  pkgPath : Str
  name : Str
  scope : List (Str × Underlying)

/-- The terminal failures of the resolution step, one per fatal branch of
the generator's init. -/
inductive ResolveError where
  | loadFailed : ResolveError
  | ambiguousUnit : Nat → ResolveError
  | notFound : ResolveError
  | notAContract : ResolveError
  | emptyContract : ResolveError
deriving DecidableEq

/-- Scope lookup by declaration name. -/
def scopeLookup : List (Str × Underlying) → Str → Option Underlying
  | [], _ => none
  | (k, v) :: t, target => if k = target then some v else scopeLookup t target

/-- The diagnostic line each resolution failure is reported with, modelling
the log messages of the fatal branches. -/
def resolveErrMsg : ResolveError → Str
  | .loadFailed => str "Failed to load packages"
  | .ambiguousUnit n => str "Loaded package length is not 1, but " ++ natToChars n
  | .notFound => str "Couldn't find target object in source file"
  | .notAContract => str "Provided target object is not an interface"
  | .emptyContract => str "Trying to generate middlewarer for an empty interface"

/-- init of the Generator: fail when the load failed, when it did not yield
exactly one unit, when the name is absent from the unit's scope, when the
declaration is not interface-shaped, or when the interface is empty; return
the unit and the method list otherwise.  The checks run in exactly this
order. -/
def Generator.init (loadResult : Except Unit (List LoadedPackage)) (target : Str) :
    Except ResolveError (LoadedPackage × List Method) :=
  match loadResult with
  | .error _ => .error .loadFailed
  | .ok packs =>
    match packs with
    | [p] =>
      match scopeLookup p.scope target with
      | none => .error .notFound
      | some .other => .error .notAContract
      | some (.iface ms) =>
        if ms.length = 0 then .error .emptyContract else .ok (p, ms)
    | _ => .error (.ambiguousUnit packs.length)

/-- The parsed command line: the -type and -output flag values, the -d debug
flag, and the raw arguments echoed into the generated header. -/
structure Config where
  typeName : Str
  output : Str
  debug : Bool
  rawArgs : Str

/-- The external world a run observes: the package load result, whether
opening a destination file succeeds, and the formatter subprocess mapping
its input text to formatted output or a failure diagnostic. -/
structure Env where
  loadResult : Except Unit (List LoadedPackage)
  openOk : Str → Bool
  goimports : Str → Except Str Str

/-- Where the output is directed. -/
inductive Dest where
  | stdout : Dest
  | file : Str → Dest
deriving DecidableEq

/-- The externally visible steps of a run: printing usage, logging a
diagnostic, opening (creating or truncating) the destination file, and
writing the final text to the destination. -/
inductive Event where
  | usage : Event
  | diag : Str → Event
  | openTrunc : Str → Event
  | writeOut : Dest → Str → Event
deriving DecidableEq

/-- How a run ends. -/
inductive Outcome where
  | exitErr : Outcome
  | panicked : Outcome
  | success : Outcome
deriving DecidableEq

/-- The default destination file name derived from the type name. -/
def defaultOutFileName (typeName : Str) : Str :=
  toLowerStr typeName ++ str "_middleware.go"

/-- The destination file name: the -output flag value when present, the
derived default otherwise. -/
def outFileName (cfg : Config) : Str :=
  if cfg.output ≠ [] then cfg.output else defaultOutFileName cfg.typeName

/-- main: reject a missing -type value with usage text and a diagnostic;
otherwise select the destination — opening (creating/truncating) the output
file now unless in debug mode — then resolve, generate, pipe the text
through the formatter, and only on its success write the result to the
destination. -/
def mainRun (cfg : Config) (env : Env) : List Event × Outcome :=
  if cfg.typeName = [] then
    ([.usage, .diag (str "no type name supplied")], .exitErr)
  else
    let destStep : List Event × Except Str Dest :=
      if cfg.debug then ([], .ok .stdout)
      else
        if env.openOk (outFileName cfg) then
          ([.openTrunc (outFileName cfg)], .ok (.file (outFileName cfg)))
        else ([], .error (str "Couldn't open output file"))
    match destStep with
    | (evs, .error msg) => (evs ++ [.diag msg], .exitErr)
    | (evs, .ok dest) =>
      match Generator.init env.loadResult cfg.typeName with
      | .error e => (evs ++ [.diag (resolveErrMsg e)], .exitErr)
      | .ok (p, ms) =>
        match generateWrapperCode cfg.typeName (typeStringQuantifier p.pkgPath) ms with
        | none => (evs, .panicked)
        | some code =>
          match env.goimports (printOutput cfg.rawArgs p.name code) with
          | .error msg => (evs ++ [.diag (str "Command to format code failed - " ++ msg)], .exitErr)
          | .ok res => (evs ++ [.writeOut dest res], .success)

/-- A unit with a one-method contract bound to S, used to exercise the
resolver's success path. -/
def resolverPkg : LoadedPackage :=
  ⟨str "example.com/m", str "m", [(str "S", .iface [⟨str "M", [], []⟩])]⟩

/-- A configuration with an empty -type value. -/
def emptyTypeCfg : Config := ⟨[], [], false, []⟩

/-- An environment in which every external step fails; a run that rejects
its configuration never consults it. -/
def idleEnv : Env := ⟨.error (), fun _ => false, fun _ => .error []⟩

/-- A non-debug run against an interface with no methods. -/
def emptyIfaceCfg : Config := ⟨str "S", [], false, str "-type=S"⟩

/-- The environment of that run: one loaded unit binding S to an empty
interface, file opening succeeds, the formatter echoes its input. -/
def emptyIfaceEnv : Env :=
  ⟨.ok [⟨str "p", str "p", [(str "S", .iface [])]⟩], fun _ => true, fun s => .ok s⟩

/-- A debug-mode run whose package load fails. -/
def loadFailCfg : Config := ⟨str "T", [], true, []⟩

/-- The environment of that run. -/
def loadFailEnv : Env := ⟨.error (), fun _ => true, fun s => .ok s⟩

/-- The method Bar(x int), whose parameter carries a declared name. -/
def namedParamMethod : Method := ⟨str "Bar", [⟨str "x", .basic (str "int")⟩], []⟩

@[simp] theorem noNl_nil : noNl [] := by simp [noNl]

@[simp] theorem noNl_cons {c : Char} {s : Str} : noNl (c :: s) ↔ c ≠ '\n' ∧ noNl s := by
  simp only [noNl, List.mem_cons, not_or]
  exact and_congr_left fun _ => ⟨fun h e => h e.symm, fun h e => h e.symm⟩

@[simp] theorem noNl_append {a b : Str} : noNl (a ++ b) ↔ noNl a ∧ noNl b := by
  simp [noNl, List.mem_append, not_or]

theorem noNl_natToCharsCore (fuel n : Nat) : noNl (natToCharsCore fuel n) := by
  have hd : ∀ k, k < 10 → digitChar k ≠ '\n' := by decide
  induction fuel generalizing n with
  | zero => simp [natToCharsCore]
  | succ fuel ih =>
    rw [natToCharsCore]
    split
    next h => simp [hd n h]
    next h => simp [ih (n / 10), hd (n % 10) (Nat.mod_lt n (by omega))]

theorem noNl_natToChars (n : Nat) : noNl (natToChars n) := noNl_natToCharsCore _ _

theorem noNl_joinSep {sep : Str} {l : List Str} (hs : noNl sep)
    (h : ∀ x ∈ l, noNl x) : noNl (joinSep sep l) := by
  induction l with
  | nil => simp [joinSep]
  | cons x t ih =>
    cases t with
    | nil => simpa [joinSep] using h x (by simp)
    | cons y t2 =>
      rw [joinSep]
      refine noNl_append.mpr ⟨noNl_append.mpr ⟨h x (by simp), hs⟩, ?_⟩
      exact ih fun z hz => h z (List.mem_cons_of_mem x hz)

theorem lines_append_cons (a b : Str) (h : noNl a) :
    lines (a ++ '\n' :: b) = a :: lines b := by
  induction a with
  | nil => simp [lines]
  | cons c t ih =>
    rcases noNl_cons.mp h with ⟨hc, ht⟩
    simp only [List.cons_append, lines, if_neg hc, List.append_eq, ih ht]

@[simp] theorem unlines_nil : unlines [] = [] := rfl

theorem unlines_cons (x : Str) (t : List Str) :
    unlines (x :: t) = x ++ '\n' :: unlines t := by
  simp [unlines, nl]

theorem unlines_append (a b : List Str) : unlines (a ++ b) = unlines a ++ unlines b := by
  simp [unlines]

theorem unlines_flatten (L : List (List Str)) :
    unlines L.flatten = (L.map unlines).flatten := by
  induction L with
  | nil => rfl
  | cons x t ih => simp [unlines_append, ih]

theorem lines_unlines_append (ls : List Str) (rest : Str) (h : ∀ l ∈ ls, noNl l) :
    lines (unlines ls ++ rest) = ls ++ lines rest := by
  induction ls with
  | nil => simp
  | cons x t ih =>
    rw [unlines_cons, List.append_assoc, List.cons_append,
      lines_append_cons _ _ (h x (by simp)), ih fun l hl => h l (List.mem_cons_of_mem x hl)]
    rfl

theorem lines_unlines (ls : List Str) (h : ∀ l ∈ ls, noNl l) :
    lines (unlines ls) = ls ++ [[]] := by
  have := lines_unlines_append ls [] h
  simpa [lines] using this

theorem foldl_append {α : Type} (f : α → Str) (l : List α) (a : Str) :
    l.foldl (fun acc x => acc ++ f x) a = a ++ (l.map f).flatten := by
  induction l generalizing a with
  | nil => simp
  | cons x t ih => simp [ih, List.append_assoc]

theorem flatten_map_sep (sep : Str) (l : List Str) (h : l ≠ []) :
    (l.map (· ++ sep)).flatten = joinSep sep l ++ sep := by
  induction l with
  | nil => exact absurd rfl h
  | cons x t ih =>
    cases t with
    | nil => simp [joinSep]
    | cons y t2 =>
      rw [List.map_cons, List.flatten_cons, ih (by simp), joinSep]
      simp [List.append_assoc]

theorem trimSuffix_append (x suf : Str) : trimSuffix (x ++ suf) suf = x := by
  have h : suf.isSuffixOf (x ++ suf) := by
    rw [List.isSuffixOf_iff_suffix]
    exact List.suffix_append x suf
  simp [trimSuffix, h, List.take_left]

theorem trimSuffix_nil {suf : Str} (h : suf ≠ []) : trimSuffix [] suf = [] := by
  have : ¬ suf.isSuffixOf ([] : Str) := by
    rw [List.isSuffixOf_iff_suffix]
    simpa [List.suffix_nil] using h
  simp [trimSuffix, this]

theorem trimSuffix_flatten_sep (sep : Str) (l : List Str) (hsep : sep ≠ []) :
    trimSuffix ((l.map (· ++ sep)).flatten) sep = joinSep sep l := by
  cases l with
  | nil => simpa [joinSep] using trimSuffix_nil hsep
  | cons x t => rw [flatten_map_sep sep _ (by simp), trimSuffix_append]

theorem parametersStr_eq (q : Pkg → Str) (ps : List Param) :
    parametersStr q ps =
      joinSep (str ", ") (ps.enum.map fun ip =>
        str "a" ++ natToChars ip.1 ++ str " " ++ typeString q ip.2.type) := by
  rw [parametersStr, parametersRaw, foldl_append, List.nil_append]
  have hmap : (ps.enum.map fun ip => paramChunk q ip.1 ip.2) =
      (ps.enum.map fun ip =>
        str "a" ++ natToChars ip.1 ++ str " " ++ typeString q ip.2.type).map (· ++ str ", ") := by
    rw [List.map_map]
    refine List.map_congr_left fun ip _ => ?_
    simp [paramChunk, List.append_assoc]
  rw [hmap, trimSuffix_flatten_sep _ _ (by decide)]

theorem argumentsStr_eq (n : Nat) :
    argumentsStr n =
      joinSep (str ", ") ((List.range n).map fun i => str "a" ++ natToChars i) := by
  rw [argumentsStr, argumentsRaw, foldl_append, List.nil_append]
  have hmap : ((List.range n).map argChunk) =
      ((List.range n).map fun i => str "a" ++ natToChars i).map (· ++ str ", ") := by
    rw [List.map_map]
    refine List.map_congr_left fun i _ => ?_
    simp [argChunk, List.append_assoc]
  rw [hmap, trimSuffix_flatten_sep _ _ (by decide)]

theorem noNl_argumentsStr (n : Nat) : noNl (argumentsStr n) := by
  rw [argumentsStr_eq]
  refine noNl_joinSep (by decide) fun x hx => ?_
  rcases List.mem_map.mp hx with ⟨i, _, rfl⟩
  exact noNl_append.mpr ⟨by decide, noNl_natToChars i⟩

theorem generateMiddlewareMethod_eq (fl sn : Str) (q : Pkg → Str) (m : Method) :
    generateMiddlewareMethod fl sn q m = unlines (methodBodyLines fl sn q m) := by
  by_cases h : m.results.length = 0
  · simp [generateMiddlewareMethod, methodBodyLines, h, interfaceMethodFormatVoid,
      unlines_cons, nl, List.append_assoc]
  · simp [generateMiddlewareMethod, methodBodyLines, h, interfaceMethodFormatReturn,
      unlines_cons, nl, List.append_assoc]

theorem generateInterfaceMethods_eq (fl sn : Str) (q : Pkg → Str) (b : Buffers)
    (ms : List Method) :
    generateInterfaceMethods fl sn q b ms =
      ⟨b.middlewareStruct ++ unlines (ms.map overrideFieldLine),
       b.handlerFuncTypes ++ unlines (ms.map (handlerAliasLine q)),
       b.interfaceMethods ++ (ms.map (generateMiddlewareMethod fl sn q)).flatten⟩ := by
  induction ms generalizing b with
  | nil => simp [generateInterfaceMethods]
  | cons m t ih =>
    have step : generateInterfaceMethods fl sn q b (m :: t) =
        generateInterfaceMethods fl sn q (genMethodStep fl sn q b m) t := rfl
    rw [step, ih]
    simp [genMethodStep, unlines_cons, nl, List.append_assoc]

theorem wrapFunctionFormat_eq (tn sn : Str) :
    wrapFunctionFormat tn sn = unlines (wrapFunctionLines tn sn) := by
  simp [wrapFunctionFormat, wrapFunctionLines, unlines_cons, nl, List.append_assoc]

theorem middlewareStructHeader_eq (tn sn : Str) :
    middlewareStructHeader tn sn = unlines (middlewareStructHeaderLines tn sn) := by
  simp [middlewareStructHeader, middlewareStructHeaderLines, unlines_cons, nl,
    List.append_assoc]

theorem generateWrapperCode_cons (c : Char) (cs : Str) (q : Pkg → Str) (ms : List Method) :
    generateWrapperCode (c :: cs) q ms =
      some ⟨unlines (wrapFunctionLines (c :: cs) ((c :: cs) ++ str "Middleware")),
            unlines (middlewareStructHeaderLines (c :: cs) ((c :: cs) ++ str "Middleware") ++
              ms.map overrideFieldLine ++ [str "\x7d"]),
            unlines (ms.map (handlerAliasLine q)),
            unlines ((ms.map
              (methodBodyLines [c.toLower] ((c :: cs) ++ str "Middleware") q)).flatten)⟩ := by
  rw [generateWrapperCode]
  simp only [firstLetterLower, generateInterfaceMethods_eq, Option.some.injEq]
  refine (Code.mk.injEq _ _ _ _ _ _ _ _).mpr ⟨?_, ?_, ?_, ?_⟩
  · exact wrapFunctionFormat_eq _ _
  · rw [middlewareStructHeader_eq, unlines_append, unlines_append]
    simp [unlines_cons, nl, List.append_assoc]
  · simp
  · rw [List.nil_append, unlines_flatten, List.map_map]
    congr 1
    exact List.map_congr_left fun m _ => generateMiddlewareMethod_eq _ _ _ m

theorem toLower_ne_nl {c : Char} (h : c ≠ '\n') : c.toLower ≠ '\n' := by
  by_cases hc : c.toNat ≥ 65 ∧ c.toNat ≤ 90
  · have hlow : c.toLower = Char.ofNat (c.toNat + 32) := by
      unfold Char.toLower
      exact if_pos hc
    rw [hlow]
    intro heq
    have hv : Char.isValidCharNat (c.toNat + 32) := Or.inl (by omega)
    rw [Char.ofNat, dif_pos hv] at heq
    have ht : (Char.ofNatAux (c.toNat + 32) hv).toNat = c.toNat + 32 := rfl
    rw [heq] at ht
    have h10 : ('\n').toNat = 10 := rfl
    omega
  · have hlow : c.toLower = c := by
      unfold Char.toLower
      exact if_neg hc
    rw [hlow]
    exact h

theorem parametersStr_nil (q : Pkg → Str) : parametersStr q [] = [] := rfl

theorem argumentsStr_zero : argumentsStr 0 = [] := rfl

theorem typeStringList_eq (q : Pkg → Str) (args : List TypeRef) :
    typeStringList q args = joinSep (str ", ") (args.map (typeString q)) := by
  induction args with
  | nil => rfl
  | cons t rest ih =>
    cases rest with
    | nil => rfl
    | cons t2 r2 =>
      rw [typeStringList, ih]
      rfl

theorem typeString_generic (q : Pkg → Str) (b : TypeRef) (args : List TypeRef) :
    typeString q (.generic b args) =
      typeString q b ++ str "[" ++
        joinSep (str ", ") (args.map (typeString q)) ++ str "]" := by
  rw [typeString, typeStringList_eq]

/-- C3: a generated method with zero results uses the void template, which
carries no return type; exactly one result renders as its qualified type
with no parentheses added; and two or more results render as the
comma-joined qualified types wrapped in parentheses, placed into the
value-returning template. -/
theorem result_type_rendering (fl sn : Str) (q : Pkg → Str) (m : Method) :
    (m.results = [] → generateMiddlewareMethod fl sn q m =
      interfaceMethodFormatVoid fl sn m.name (parametersStr q m.params)
        (argumentsStr m.params.length)) ∧
    (∀ r : Param, m.results = [r] →
      returnTypeString q m.results = typeString q r.type) ∧
    (2 ≤ m.results.length →
      returnTypeString q m.results =
        str "(" ++ joinSep (str ", ") (m.results.map fun r => typeString q r.type) ++
          str ")") ∧
    (m.results ≠ [] → generateMiddlewareMethod fl sn q m =
      interfaceMethodFormatReturn fl sn m.name (parametersStr q m.params)
        (returnTypeString q m.results) (argumentsStr m.params.length)) := by
  refine ⟨fun h => ?_, fun r h => ?_, fun h => ?_, fun h => ?_⟩
  · simp [generateMiddlewareMethod, h]
  · simp [returnTypeString, h, joinSep]
  · have h1 : m.results.length ≠ 1 := by omega
    simp [returnTypeString, h1]
  · have h0 : m.results.length ≠ 0 := by
      simpa [List.length_eq_zero] using h
    simp [generateMiddlewareMethod, h0]

theorem result_type_rendering_witness :
    returnTypeString (fun _ => []) [⟨[], .basic (str "int")⟩] =
      typeString (fun _ => []) (.basic (str "int")) ∧
    returnTypeString (fun _ => []) [⟨[], .basic (str "int")⟩, ⟨[], .basic (str "error")⟩] =
      str "(" ++
        joinSep (str ", ")
          ([⟨[], .basic (str "int")⟩, ⟨[], TypeRef.basic (str "error")⟩].map
            fun r : Param => typeString (fun _ => []) r.type) ++ str ")" :=
  ⟨(result_type_rendering [] [] (fun _ => [])
      ⟨[], [], [⟨[], .basic (str "int")⟩]⟩).2.1 _ rfl,
   (result_type_rendering [] [] (fun _ => [])
      ⟨[], [], [⟨[], .basic (str "int")⟩, ⟨[], .basic (str "error")⟩]⟩).2.2.1 (by decide)⟩

/-- C5: under the generator's qualifier, a named type from the invoking
package renders unqualified, a named type from any other package renders
prefixed with that package's short name and a dot, and rendering recurses
into the constituents of pointer, slice, map and generic types, so the
qualification rule applies to them as well. -/
theorem qualification_of_type_rendering (gp : Str) (p : Pkg) (n : Str)
    (t k v b : TypeRef) (args : List TypeRef)
    (hp : p.path ≠ gp) (hn : p.name ≠ []) :
    (∀ pn : Str, typeString (typeStringQuantifier gp) (.named ⟨gp, pn⟩ n) = n) ∧
    typeString (typeStringQuantifier gp) (.named p n) = p.name ++ str "." ++ n ∧
    typeString (typeStringQuantifier gp) (.pointer t) =
      str "*" ++ typeString (typeStringQuantifier gp) t ∧
    typeString (typeStringQuantifier gp) (.slice t) =
      str "[]" ++ typeString (typeStringQuantifier gp) t ∧
    typeString (typeStringQuantifier gp) (.mapType k v) =
      str "map[" ++ typeString (typeStringQuantifier gp) k ++ str "]" ++
        typeString (typeStringQuantifier gp) v ∧
    typeString (typeStringQuantifier gp) (.generic b args) =
      typeString (typeStringQuantifier gp) b ++ str "[" ++
        joinSep (str ", ") (args.map (typeString (typeStringQuantifier gp))) ++
        str "]" ∧
    typeString (typeStringQuantifier gp) (.pointer (.named p n)) =
      str "*" ++ (p.name ++ str "." ++ n) := by
  have hq : typeStringQuantifier gp p = p.name := by
    simp [typeStringQuantifier, hp]
  have hnamed : typeString (typeStringQuantifier gp) (.named p n) =
      p.name ++ str "." ++ n := by
    rw [typeString, hq, if_neg hn]
  refine ⟨fun pn => ?_, hnamed, by rw [typeString], by rw [typeString], by rw [typeString],
    typeString_generic _ _ _, ?_⟩
  · simp [typeString, typeStringQuantifier]
  · rw [typeString, hnamed]

theorem qualification_of_type_rendering_witness :
    typeString (typeStringQuantifier (str "example.com/m"))
        (.named ⟨str "example.com/other", str "other"⟩ (str "T")) =
      (str "other") ++ str "." ++ str "T" ∧
    typeString (typeStringQuantifier (str "example.com/m"))
        (.pointer (.named ⟨str "example.com/other", str "other"⟩ (str "T"))) =
      str "*" ++ ((str "other") ++ str "." ++ str "T") :=
  ⟨(qualification_of_type_rendering (str "example.com/m")
      ⟨str "example.com/other", str "other"⟩ (str "T")
      (.basic []) (.basic []) (.basic []) (.basic []) []
      (by decide) (by decide)).2.1,
   (qualification_of_type_rendering (str "example.com/m")
      ⟨str "example.com/other", str "other"⟩ (str "T")
      (.basic []) (.basic []) (.basic []) (.basic []) []
      (by decide) (by decide)).2.2.2.2.2.2⟩

theorem resolveErrMsg_ambiguous_head (n : Nat) :
    (resolveErrMsg (.ambiguousUnit n)).head? = some 'L' := rfl

/-- C8: the resolver fails with loadFailed when the load fails, with
ambiguousUnit when the load yields a unit count other than one, with
notFound when the name is absent from the unit's scope, with notAContract
when the declaration is not interface-shaped, and with emptyContract when
the interface has no methods — the conditions checked in that order, each
with its own diagnostic — and on success it returns the unit and the
resolved method list. -/
theorem target_resolver_cases (target : Str) :
    (Generator.init (.error ()) target = .error .loadFailed) ∧
    (∀ packs : List LoadedPackage, packs.length ≠ 1 →
      Generator.init (.ok packs) target = .error (.ambiguousUnit packs.length)) ∧
    (∀ p : LoadedPackage, scopeLookup p.scope target = none →
      Generator.init (.ok [p]) target = .error .notFound) ∧
    (∀ p : LoadedPackage, scopeLookup p.scope target = some .other →
      Generator.init (.ok [p]) target = .error .notAContract) ∧
    (∀ p : LoadedPackage, scopeLookup p.scope target = some (.iface []) →
      Generator.init (.ok [p]) target = .error .emptyContract) ∧
    (∀ (p : LoadedPackage) (ms : List Method), ms ≠ [] →
      scopeLookup p.scope target = some (.iface ms) →
      Generator.init (.ok [p]) target = .ok (p, ms)) ∧
    (∀ n : Nat, resolveErrMsg (.ambiguousUnit n) ≠ resolveErrMsg .notFound) ∧
    (∀ n : Nat, resolveErrMsg (.ambiguousUnit n) ≠ resolveErrMsg .notAContract) ∧
    (∀ n : Nat, resolveErrMsg (.ambiguousUnit n) ≠ resolveErrMsg .emptyContract) ∧
    (resolveErrMsg .notFound ≠ resolveErrMsg .notAContract) ∧
    (resolveErrMsg .notFound ≠ resolveErrMsg .emptyContract) ∧
    (resolveErrMsg .notAContract ≠ resolveErrMsg .emptyContract) := by
  have hhead : ∀ (n : Nat) (e : ResolveError), (resolveErrMsg e).head? ≠ some 'L' →
      resolveErrMsg (.ambiguousUnit n) ≠ resolveErrMsg e := by
    intro n e he heq
    exact he (resolveErrMsg_ambiguous_head n ▸ congrArg List.head? heq.symm)
  refine ⟨rfl, ?_, ?_, ?_, ?_, ?_, ?_, ?_, ?_, by decide, by decide, by decide⟩
  · intro packs h
    match packs with
    | [] => rfl
    | [p] => exact absurd rfl h
    | p :: p2 :: t => rfl
  · intro p h
    simp [Generator.init, h]
  · intro p h
    simp [Generator.init, h]
  · intro p h
    simp [Generator.init, h]
  · intro p ms hne h
    have hlen : ms.length ≠ 0 := by simpa [List.length_eq_zero] using hne
    simp [Generator.init, h, hlen]
  · exact fun n => hhead n .notFound (by decide)
  · exact fun n => hhead n .notAContract (by decide)
  · exact fun n => hhead n .emptyContract (by decide)

theorem target_resolver_cases_witness :
    Generator.init (.ok [resolverPkg]) (str "S") =
      .ok (resolverPkg, [⟨str "M", [], []⟩]) :=
  (target_resolver_cases (str "S")).2.2.2.2.2.1 resolverPkg [⟨str "M", [], []⟩]
    (List.cons_ne_nil _ _) rfl

/-- C9: a run whose -type value is missing (empty) prints the usage text
and the no-type diagnostic and exits with an error; the result does not
depend on the environment, so no resolution or generation is attempted and
no file is opened or written. -/
theorem missing_type_flag_config_error (cfg : Config) (env env2 : Env)
    (h : cfg.typeName = []) :
    mainRun cfg env = ([.usage, .diag (str "no type name supplied")], .exitErr) ∧
    mainRun cfg env = mainRun cfg env2 := by
  constructor <;> simp [mainRun, h]

theorem missing_type_flag_config_error_witness :
    mainRun emptyTypeCfg idleEnv =
      ([.usage, .diag (str "no type name supplied")], .exitErr) :=
  (missing_type_flag_config_error emptyTypeCfg idleEnv idleEnv rfl).1

theorem methodBody_head (fl sn : Str) (q : Pkg → Str) (m : Method) :
    ∃ rest, generateMiddlewareMethod fl sn q m =
      (str "func (" ++ fl ++ str " *") ++ rest := by
  refine ⟨(sn ++ str ") " ++ m.name ++ str "(" ++ parametersStr q m.params ++
      (if m.results.length = 0 then str ") \x7b"
       else str ") " ++ returnTypeString q m.results ++ str " \x7b")) ++
      '\n' :: unlines (methodBodyLines fl sn q m).tail, ?_⟩
  rw [generateMiddlewareMethod_eq, methodBodyLines, unlines_cons]
  simp [List.append_assoc]

/-- C10: for a contract name with at least one character the receiver
extraction never faults — generation always returns a result — and every
generated method body's receiver is the lower-cased first letter of the
contract name. -/
theorem receiver_letter_total_and_used (c : Char) (cs : Str) (q : Pkg → Str)
    (ms : List Method) :
    firstLetterLower (c :: cs) = some [c.toLower] ∧
    (∃ code, generateWrapperCode (c :: cs) q ms = some code ∧
      code.interfaceMethods = (ms.map
        (generateMiddlewareMethod [c.toLower] ((c :: cs) ++ str "Middleware") q)).flatten) ∧
    ∀ m ∈ ms, (str "func (" ++ [c.toLower] ++ str " *") <+:
      generateMiddlewareMethod [c.toLower] ((c :: cs) ++ str "Middleware") q m := by
  refine ⟨rfl, ⟨_, generateWrapperCode_cons c cs q ms, ?_⟩, fun m _ => ?_⟩
  · show unlines ((ms.map
        (methodBodyLines [c.toLower] ((c :: cs) ++ str "Middleware") q)).flatten) =
      (ms.map (generateMiddlewareMethod [c.toLower] ((c :: cs) ++ str "Middleware") q)).flatten
    rw [unlines_flatten, List.map_map]
    congr 1
    exact List.map_congr_left fun m _ => (generateMiddlewareMethod_eq _ _ _ m).symm
  · rcases methodBody_head [c.toLower] ((c :: cs) ++ str "Middleware") q m with ⟨rest, hr⟩
    exact ⟨rest, hr.symm⟩

theorem receiver_letter_total_and_used_witness :
    (str "func (" ++ ['F'.toLower] ++ str " *") <+:
      generateMiddlewareMethod ['F'.toLower] ((str "Foo") ++ str "Middleware")
        (fun _ => []) ⟨str "Do", [], []⟩ :=
  (receiver_letter_total_and_used 'F' (str "oo") (fun _ => [])
    [⟨str "Do", [], []⟩]).2.2 _ (List.mem_singleton.mpr rfl)

theorem enumFrom_map_comp {α β : Type} (f : α → β) :
    ∀ (n : Nat) (l : List α),
      (l.map f).enumFrom n = (l.enumFrom n).map fun ip => (ip.1, f ip.2)
  | _, [] => rfl
  | n, a :: t => by
    simp only [List.map_cons, List.enumFrom_cons, enumFrom_map_comp f (n + 1) t]

theorem enum_map_comp {α β : Type} (f : α → β) (l : List α) :
    (l.map f).enum = l.enum.map fun ip => (ip.1, f ip.2) :=
  enumFrom_map_comp f 0 l

theorem parametersStr_types (q : Pkg → Str) (ps : List Param) :
    parametersStr q ps =
      joinSep (str ", ") ((ps.map Param.type).enum.map fun it =>
        str "a" ++ natToChars it.1 ++ str " " ++ typeString q it.2) := by
  rw [parametersStr_eq]
  congr 1
  rw [enum_map_comp, List.map_map]
  rfl

/-- C6 counterexample: for the contract Foo with the single method
Bar(x int), the handler-type-alias section renders the declared parameter
name x and nowhere contains the synthesized name a0, refuting the claim
that every generated section uses synthesized positional parameter names
and discards the declared ones. -/
theorem param_names_positional_cx :
    ((generateWrapperCode (str "Foo") (fun _ => []) [namedParamMethod]).getD
        default).handlerFuncTypes = str "type BarHandler func(x int)" ++ nl ∧
    ¬ (str "a0" <:+: ((generateWrapperCode (str "Foo") (fun _ => [])
        [namedParamMethod]).getD default).handlerFuncTypes) ∧
    (str "(x int)" <:+: ((generateWrapperCode (str "Foo") (fun _ => [])
        [namedParamMethod]).getD default).handlerFuncTypes) := by
  refine ⟨by decide, by decide, by decide⟩

/-- C6 (amended): in the method-body section parameter names are purely
positional and synthesized (a0, a1, …), and declared names are discarded —
the rendered parameter and argument lists depend only on the parameter
types — while the handler-type-alias section reproduces the source
signature, preserving a declared parameter name when one is present. -/
theorem param_names_positional_in_bodies (q : Pkg → Str) (ps ps2 : List Param)
    (nm : Str) (t : TypeRef) (hnm : nm ≠ []) :
    parametersStr q ps =
      joinSep (str ", ") (ps.enum.map fun ip =>
        str "a" ++ natToChars ip.1 ++ str " " ++ typeString q ip.2.type) ∧
    argumentsStr ps.length =
      joinSep (str ", ") ((List.range ps.length).map fun i => str "a" ++ natToChars i) ∧
    (ps.map Param.type = ps2.map Param.type →
      parametersStr q ps = parametersStr q ps2) ∧
    writeTuple q [⟨nm, t⟩] =
      str "(" ++ (nm ++ str " " ++ typeString q t) ++ str ")" := by
  refine ⟨parametersStr_eq q ps, argumentsStr_eq ps.length, fun h => ?_, ?_⟩
  · rw [parametersStr_types q ps, parametersStr_types q ps2, h]
  · simp [writeTuple, joinSep, hnm, List.append_assoc]

theorem param_names_positional_in_bodies_witness :
    writeTuple (fun _ => []) [⟨str "x", .basic (str "int")⟩] =
      str "(" ++ ((str "x") ++ str " " ++
        typeString (fun _ => []) (.basic (str "int"))) ++ str ")" :=
  (param_names_positional_in_bodies (fun _ => []) [] [] (str "x")
    (.basic (str "int")) (by decide)).2.2.2

theorem mainRun_after_dest (cfg : Config) (env : Env) (h0 : ¬ cfg.typeName = [])
    (hopen : cfg.debug = true ∨ env.openOk (outFileName cfg) = true) :
    ∃ (evs : List Event) (dest : Dest),
      (∀ (d : Dest) (s : Str), Event.writeOut d s ∉ evs) ∧
      mainRun cfg env =
        (match Generator.init env.loadResult cfg.typeName with
         | .error e => (evs ++ [.diag (resolveErrMsg e)], .exitErr)
         | .ok (p, ms) =>
           match generateWrapperCode cfg.typeName (typeStringQuantifier p.pkgPath) ms with
           | none => (evs, .panicked)
           | some code =>
             match env.goimports (printOutput cfg.rawArgs p.name code) with
             | .error msg =>
               (evs ++ [.diag (str "Command to format code failed - " ++ msg)], .exitErr)
             | .ok res => (evs ++ [.writeOut dest res], .success)) := by
  rcases hopen with hd | ho
  · exact ⟨[], .stdout, by simp, by simp [mainRun, h0, hd]⟩
  · by_cases hd : cfg.debug
    · exact ⟨[], .stdout, by simp, by simp [mainRun, h0, hd]⟩
    · exact ⟨[.openTrunc (outFileName cfg)], .file (outFileName cfg),
        by simp, by simp [mainRun, h0, hd, ho]⟩

/-- C1 (amended): in a non-debug run the destination file is opened —
created and truncated — at startup, before resolution, as the
counterexample run shows; however no content is ever written to any
destination unless resolution, generation and formatting all succeed: a
run that does not end in success performs no write event, and a successful
run's single write is of the formatter's output and is its final event. -/
theorem no_content_written_on_failing_run (cfg : Config) (env : Env) :
    ((mainRun cfg env).2 ≠ .success →
      ∀ (d : Dest) (s : Str), Event.writeOut d s ∉ (mainRun cfg env).1) ∧
    ((mainRun cfg env).2 = .success →
      ∃ (d : Dest) (text res : Str), env.goimports text = .ok res ∧
        (mainRun cfg env).1.getLast? = some (.writeOut d res)) := by
  by_cases h0 : cfg.typeName = []
  · refine ⟨fun _ d s hmem => ?_, fun hs => ?_⟩
    · simp [mainRun, h0] at hmem
    · simp [mainRun, h0] at hs
  · by_cases hopen : cfg.debug = true ∨ env.openOk (outFileName cfg) = true
    · rcases mainRun_after_dest cfg env h0 hopen with ⟨evs, dest, hevs, heq⟩
      rw [heq]
      cases hinit : Generator.init env.loadResult cfg.typeName with
      | error e =>
        dsimp only
        refine ⟨fun _ d s hmem => ?_, fun hs => by simp at hs⟩
        rcases List.mem_append.mp hmem with h | h
        · exact hevs d s h
        · simp at h
      | ok pm =>
        obtain ⟨p, ms⟩ := pm
        dsimp only
        cases hgen : generateWrapperCode cfg.typeName (typeStringQuantifier p.pkgPath) ms with
        | none =>
          dsimp only
          exact ⟨fun _ d s hmem => hevs d s hmem, fun hs => by simp at hs⟩
        | some code =>
          dsimp only
          cases hfmt : env.goimports (printOutput cfg.rawArgs p.name code) with
          | error msg =>
            dsimp only
            refine ⟨fun _ d s hmem => ?_, fun hs => by simp at hs⟩
            rcases List.mem_append.mp hmem with h | h
            · exact hevs d s h
            · simp at h
          | ok res =>
            dsimp only
            refine ⟨fun hne _ _ _ => absurd rfl hne, fun _ => ?_⟩
            exact ⟨dest, printOutput cfg.rawArgs p.name code, res, hfmt, by simp⟩
    · push_neg at hopen
      obtain ⟨hd, ho⟩ := hopen
      refine ⟨fun _ d s hmem => ?_, fun hs => ?_⟩
      · simp [mainRun, h0, hd, ho] at hmem
      · simp [mainRun, h0, hd, ho] at hs

theorem no_content_written_on_failing_run_witness :
    Event.writeOut Dest.stdout [] ∉ (mainRun loadFailCfg loadFailEnv).1 :=
  (no_content_written_on_failing_run loadFailCfg loadFailEnv).1 (by decide) Dest.stdout []

/-- C1 counterexample: the non-debug run against an empty contract fails
after startup, yet its trace contains the openTrunc event for the
destination file s_middleware.go — the file was created and truncated
before resolution — refuting the claim that a failing run leaves no output
file created or truncated. -/
theorem no_partial_artifact_cx :
    (mainRun emptyIfaceCfg emptyIfaceEnv).2 = .exitErr ∧
    Event.openTrunc (str "s_middleware.go") ∈ (mainRun emptyIfaceCfg emptyIfaceEnv).1 := by
  refine ⟨by decide, by decide⟩

@[simp] theorem isPrefixOf_append_self (p t : Str) : p.isPrefixOf (p ++ t) = true := by
  rw [ List.isPrefixOf_iff_prefix]
  exact List.prefix_append p t

theorem noNl_handlerAliasLine {q : Pkg → Str} {m : Method} (hm : m.wfR q) :
    noNl (handlerAliasLine q m) := by
  obtain ⟨h1, h2, _, _⟩ := hm
  simp +decide [handlerAliasLine, h1, h2]

theorem noNl_overrideFieldLine {q : Pkg → Str} {m : Method} (hm : m.wfR q) :
    noNl (overrideFieldLine m) := by
  obtain ⟨h1, _, _, _⟩ := hm
  simp +decide [overrideFieldLine, h1]

theorem noNl_methodBodyLines {fl sn : Str} {q : Pkg → Str} {m : Method}
    (hfl : noNl fl) (hsn : noNl sn) (hm : m.wfR q) :
    ∀ l ∈ methodBodyLines fl sn q m, noNl l := by
  obtain ⟨h1, _, h3, h4⟩ := hm
  have ha := noNl_argumentsStr m.params.length
  intro l hl
  by_cases hr : m.results.length = 0 <;>
  · simp only [methodBodyLines, hr, if_pos, if_neg, ite_true, ite_false, List.mem_cons,
      List.not_mem_nil, or_false, reduceIte] at hl
    rcases hl with rfl | rfl | rfl | rfl | rfl | rfl | rfl | rfl <;>
      simp +decide [hfl, hsn, h1, h3, h4, ha]

theorem noNl_wrapFunctionLines {tn sn : Str} (htn : noNl tn) (hsn : noNl sn) :
    ∀ l ∈ wrapFunctionLines tn sn, noNl l := by
  intro l hl
  simp only [wrapFunctionLines, List.mem_cons, List.not_mem_nil, or_false] at hl
  rcases hl with rfl | rfl | rfl | rfl | rfl <;> simp +decide [htn, hsn]

theorem noNl_middlewareStructHeaderLines {tn sn : Str} (htn : noNl tn) (hsn : noNl sn) :
    ∀ l ∈ middlewareStructHeaderLines tn sn, noNl l := by
  intro l hl
  simp only [middlewareStructHeaderLines, List.mem_cons, List.not_mem_nil, or_false] at hl
  rcases hl with rfl | rfl | rfl | rfl <;> simp +decide [htn, hsn]

/-- C2: generation for a named contract always yields code in which the
handler-type section parses into exactly one alias line per method, in
declaration order, the middleware struct parses into its header, exactly
one override field line per method in declaration order, and the closing
brace, and the method-body section is exactly the per-method body blocks in
declaration order, each carrying its method's body; the handler line count
equals the method count. -/
theorem generated_sections_count_and_order (c : Char) (cs : Str) (q : Pkg → Str)
    (ms : List Method) (htn : noNl (c :: cs)) (hms : ∀ m ∈ ms, m.wfR q) :
    ∃ code, generateWrapperCode (c :: cs) q ms = some code ∧
      lines code.handlerFuncTypes = ms.map (handlerAliasLine q) ++ [[]] ∧
      (lines code.handlerFuncTypes).countP
        (fun l => (str "type ").isPrefixOf l) = ms.length ∧
      lines code.middlewareStruct =
        middlewareStructHeaderLines (c :: cs) ((c :: cs) ++ str "Middleware") ++
          (ms.map overrideFieldLine ++ [str "\x7d", []]) ∧
      lines code.interfaceMethods =
        (ms.map (methodBodyLines [c.toLower] ((c :: cs) ++ str "Middleware") q)).flatten
          ++ [[]] ∧
      ∀ m ∈ ms, (str "func (") <+:
        generateMiddlewareMethod [c.toLower] ((c :: cs) ++ str "Middleware") q m := by
  have hfl : noNl [c.toLower] := by
    have hc : c ≠ '\n' := (noNl_cons.mp htn).1
    simp [toLower_ne_nl hc]
  have hsn : noNl ((c :: cs) ++ str "Middleware") :=
    noNl_append.mpr ⟨htn, by decide⟩
  refine ⟨_, generateWrapperCode_cons c cs q ms, ?_, ?_, ?_, ?_, ?_⟩
  · exact lines_unlines _ fun l hl => by
      rcases List.mem_map.mp hl with ⟨m, hm, rfl⟩
      exact noNl_handlerAliasLine (hms m hm)
  · show (lines (unlines (ms.map (handlerAliasLine q)))).countP
      (fun l => (str "type ").isPrefixOf l) = ms.length
    rw [lines_unlines _ fun l hl => by
      rcases List.mem_map.mp hl with ⟨m, hm, rfl⟩
      exact noNl_handlerAliasLine (hms m hm)]
    rw [List.countP_append]
    have h1 : (ms.map (handlerAliasLine q)).countP
        (fun l => (str "type ").isPrefixOf l) = (ms.map (handlerAliasLine q)).length := by
      rw [List.countP_eq_length]
      intro l hl
      rcases List.mem_map.mp hl with ⟨m, _, rfl⟩
      simp [handlerAliasLine, List.append_assoc]
    have h2 : (str "type ").isPrefixOf ([] : Str) = false := rfl
    simp [h1, h2, List.length_map]
  · refine lines_unlines _ (fun l hl => ?_) |>.trans (by simp)
    rcases List.mem_append.mp hl with hl2 | hl2
    · rcases List.mem_append.mp hl2 with hl3 | hl3
      · exact noNl_middlewareStructHeaderLines htn hsn l hl3
      · rcases List.mem_map.mp hl3 with ⟨m, hm, rfl⟩
        exact noNl_overrideFieldLine (hms m hm)
    · rcases List.mem_cons.mp hl2 with rfl | hl3
      · decide
      · simp at hl3
  · exact lines_unlines _ fun l hl => by
      rcases List.mem_flatten.mp hl with ⟨bl, hbl, hlbl⟩
      rcases List.mem_map.mp hbl with ⟨m, hm, rfl⟩
      exact noNl_methodBodyLines hfl hsn (hms m hm) l hlbl
  · intro m _
    rcases methodBody_head [c.toLower] ((c :: cs) ++ str "Middleware") q m with ⟨rest, hr⟩
    rw [hr, List.append_assoc, List.append_assoc]
    exact List.prefix_append _ _

theorem generated_sections_count_and_order_witness :
    ∃ code, generateWrapperCode (str "Foo") (fun _ => [])
        [⟨str "Do", [], []⟩, ⟨str "Go", [], []⟩] = some code ∧
      (lines code.handlerFuncTypes).countP
        (fun l => (str "type ").isPrefixOf l) = 2 := by
  rcases generated_sections_count_and_order 'F' (str "oo") (fun _ => [])
      [⟨str "Do", [], []⟩, ⟨str "Go", [], []⟩] (by decide) (by decide) with
    ⟨code, hcode, _, hcount, _⟩
  exact ⟨code, hcode, hcount⟩

theorem isPrefixOf_nil_false (c : Char) (p : Str) :
    ((c :: p).isPrefixOf ([] : Str)) = false := rfl

theorem not_return_of_head {c : Char} {t : Str} (s : Str) (hs : s = c :: t)
    (hc : c ≠ 'r') : ¬ (str "return").isPrefixOf s := by
  intro hcontra
  subst hs
  have hb : ('r' == c) = false := beq_eq_false_iff_ne.mpr fun e => hc e.symm
  have hfalse : (str "return").isPrefixOf (c :: t) = false := by
    show (('r' == c) && ((str "eturn").isPrefixOf t)) = false
    rw [hb, Bool.false_and]
  rw [hfalse] at hcontra
  exact Bool.noConfusion hcontra

/-- C4: every generated method body parses into exactly the lines of
methodBodyLines — the signature line; the binding of fun to the delegate's
method of the same name; the nil check of the override field; the single
application of the override to the default handler; the closing of the
check; the invocation of fun with the synthesized arguments, under return
exactly when the method has results; and the closing brace — the arguments
being a0 … a(n-1) in declared order; and a method with zero parameters and
zero results invokes fun with no arguments and has no line that is a
return statement. -/
theorem method_body_behavior (fl sn : Str) (q : Pkg → Str) (m : Method)
    (hfl : noNl fl) (hsn : noNl sn) (hm : m.wfR q) :
    lines (generateMiddlewareMethod fl sn q m) = methodBodyLines fl sn q m ++ [[]] ∧
    argumentsStr m.params.length =
      joinSep (str ", ") ((List.range m.params.length).map fun i =>
        str "a" ++ natToChars i) ∧
    (m.params = [] → m.results = [] →
      (str "\tfun()") ∈ methodBodyLines fl sn q m ∧
      ∀ l ∈ lines (generateMiddlewareMethod fl sn q m),
        ¬ (str "return").isPrefixOf (l.dropWhile (fun ch => ch = '\t'))) := by
  have hlines : lines (generateMiddlewareMethod fl sn q m) =
      methodBodyLines fl sn q m ++ [[]] := by
    rw [generateMiddlewareMethod_eq]
    exact lines_unlines _ (noNl_methodBodyLines hfl hsn hm)
  refine ⟨hlines, argumentsStr_eq m.params.length, fun hp hr0 => ⟨?_, ?_⟩⟩
  · have h6 : str "\tfun()" =
        (if m.results.length = 0 then str "\tfun(" else str "\treturn fun(") ++
          argumentsStr m.params.length ++ str ")" := by
      rw [hp, hr0]
      decide
    rw [methodBodyLines, h6]
    simp
  · intro l hl
    rw [hlines] at hl
    rw [methodBodyLines] at hl
    simp only [hr0, hp, List.length_nil, if_pos rfl, reduceIte, List.append_assoc,
      List.cons_append, List.nil_append, List.mem_cons, List.not_mem_nil, or_false] at hl
    rcases hl with rfl | rfl | rfl | rfl | rfl | rfl | rfl | rfl | rfl
    · exact not_return_of_head _ rfl (by decide)
    · exact not_return_of_head _ rfl (by decide)
    · exact not_return_of_head _ rfl (by decide)
    · exact not_return_of_head _ rfl (by decide)
    · exact not_return_of_head _ rfl (by decide)
    · exact not_return_of_head _ rfl (by decide)
    · exact not_return_of_head _ rfl (by decide)
    · decide
    · decide

theorem method_body_behavior_witness :
    (str "\tfun()") ∈ methodBodyLines (str "s") (str "ServerMiddleware") (fun _ => [])
      ⟨str "Connect", [], []⟩ :=
  ((method_body_behavior (str "s") (str "ServerMiddleware") (fun _ => [])
      ⟨str "Connect", [], []⟩ (by decide) (by decide) (by decide)).2.2 rfl rfl).1

/-- C7: for every successful generation, the emitted text parses, in fixed
order, into: the header comment naming the invoking command line, the
package clause, a blank line, the constructor lines, a blank line, the
wrapper struct (header lines, one override field per method, closing
brace), a blank line, one handler alias per method, a blank line, and the
per-method body blocks, each block separated by a blank line. -/
theorem emitted_artifact_layout (args pkgName : Str) (c : Char) (cs : Str)
    (q : Pkg → Str) (ms : List Method) (hargs : noNl args) (hpkg : noNl pkgName)
    (htn : noNl (c :: cs)) (hms : ∀ m ∈ ms, m.wfR q) :
    ∃ code, generateWrapperCode (c :: cs) q ms = some code ∧
      lines (printOutput args pkgName code) =
        (str "// Code generated by \"middlewarer " ++ args ++ str "\"; DO NOT EDIT.") ::
        (str "package " ++ pkgName) :: [] ::
        (wrapFunctionLines (c :: cs) ((c :: cs) ++ str "Middleware") ++ [[]] ++
         (middlewareStructHeaderLines (c :: cs) ((c :: cs) ++ str "Middleware") ++
           ms.map overrideFieldLine ++ [str "\x7d"]) ++ [[]] ++
         ms.map (handlerAliasLine q) ++ [[]] ++
         (ms.map (methodBodyLines [c.toLower] ((c :: cs) ++ str "Middleware") q)).flatten ++
         [[], []]) := by
  have hfl : noNl [c.toLower] := by
    have hc : c ≠ '\n' := (noNl_cons.mp htn).1
    simp [toLower_ne_nl hc]
  have hsn : noNl ((c :: cs) ++ str "Middleware") :=
    noNl_append.mpr ⟨htn, by decide⟩
  refine ⟨_, generateWrapperCode_cons c cs q ms, ?_⟩
  have hP : printOutput args pkgName
      ⟨unlines (wrapFunctionLines (c :: cs) ((c :: cs) ++ str "Middleware")),
       unlines (middlewareStructHeaderLines (c :: cs) ((c :: cs) ++ str "Middleware") ++
         ms.map overrideFieldLine ++ [str "\x7d"]),
       unlines (ms.map (handlerAliasLine q)),
       unlines ((ms.map
         (methodBodyLines [c.toLower] ((c :: cs) ++ str "Middleware") q)).flatten)⟩ =
      unlines ((str "// Code generated by \"middlewarer " ++ args ++
          str "\"; DO NOT EDIT.") ::
        (str "package " ++ pkgName) :: [] ::
        (wrapFunctionLines (c :: cs) ((c :: cs) ++ str "Middleware") ++ [] ::
         (middlewareStructHeaderLines (c :: cs) ((c :: cs) ++ str "Middleware") ++
           ms.map overrideFieldLine ++ [str "\x7d"] ++ [] ::
          (ms.map (handlerAliasLine q) ++ [] ::
           ((ms.map
             (methodBodyLines [c.toLower] ((c :: cs) ++ str "Middleware") q)).flatten ++
            [[]]))))) := by
    simp [printOutput, unlines_cons, unlines_append, unlines, nl, List.append_assoc]
  rw [hP, lines_unlines _ ?hnl]
  case hnl =>
    intro l hl
    rcases List.mem_cons.mp hl with rfl | hl
    · simp +decide [hargs]
    rcases List.mem_cons.mp hl with rfl | hl
    · simp +decide [hpkg]
    rcases List.mem_cons.mp hl with rfl | hl
    · simp
    rcases List.mem_append.mp hl with hl | hl
    · exact noNl_wrapFunctionLines htn hsn l hl
    rcases List.mem_cons.mp hl with rfl | hl
    · simp
    rcases List.mem_append.mp hl with hl | hl
    · rcases List.mem_append.mp hl with hl | hl
      · rcases List.mem_append.mp hl with hl | hl
        · exact noNl_middlewareStructHeaderLines htn hsn l hl
        · rcases List.mem_map.mp hl with ⟨m, hm, rfl⟩
          exact noNl_overrideFieldLine (hms m hm)
      · rcases List.mem_cons.mp hl with rfl | hl
        · decide
        · simp at hl
    rcases List.mem_cons.mp hl with rfl | hl
    · simp
    rcases List.mem_append.mp hl with hl | hl
    · rcases List.mem_map.mp hl with ⟨m, hm, rfl⟩
      exact noNl_handlerAliasLine (hms m hm)
    rcases List.mem_cons.mp hl with rfl | hl
    · simp
    rcases List.mem_append.mp hl with hl | hl
    · rcases List.mem_flatten.mp hl with ⟨bl, hbl, hlbl⟩
      rcases List.mem_map.mp hbl with ⟨m, hm, rfl⟩
      exact noNl_methodBodyLines hfl hsn (hms m hm) l hlbl
    · rcases List.mem_cons.mp hl with rfl | hl
      · simp
      · simp at hl
  simp [List.append_assoc]

theorem emitted_artifact_layout_witness :
    ∃ code, generateWrapperCode (str "Foo") (fun _ => [])
        [⟨str "Do", [], []⟩] = some code ∧
      lines (printOutput (str "-type=Foo") (str "m") code) =
        (str "// Code generated by \"middlewarer " ++ (str "-type=Foo") ++
          str "\"; DO NOT EDIT.") ::
        (str "package " ++ (str "m")) :: [] ::
        (wrapFunctionLines (str "Foo") ((str "Foo") ++ str "Middleware") ++ [[]] ++
         (middlewareStructHeaderLines (str "Foo") ((str "Foo") ++ str "Middleware") ++
           [⟨str "Do", [], []⟩].map overrideFieldLine ++ [str "\x7d"]) ++ [[]] ++
         [⟨str "Do", [], []⟩].map (handlerAliasLine (fun _ => [])) ++ [[]] ++
         ([⟨str "Do", [], []⟩].map
           (methodBodyLines ['F'.toLower] ((str "Foo") ++ str "Middleware")
             (fun _ => []))).flatten ++
         [[], []]) :=
  emitted_artifact_layout (str "-type=Foo") (str "m") 'F' (str "oo") (fun _ => [])
    [⟨str "Do", [], []⟩] (by decide) (by decide) (by decide) (by decide)

end Middlewarer
